import Mathlib

/-!
# Orders Admin View — verification development

Shallow embedding of `src/app/orders/page.tsx` (a React CRUD page over a
hosted document store).  UI state (`useState` hooks) becomes an explicit
`AdminState` record; each event handler becomes a pure transition taking the
outcome of its store call as a parameter.  JavaScript strings are modelled as
Lean `String`; the string operations the page uses (`split(",")`, `trim()`,
`join(", ")`) are defined below with JavaScript semantics.
-/

namespace AdminOrders

/-- Whitespace recognised by JavaScript `String.prototype.trim`: the
ECMA-262 WhiteSpace and LineTerminator code points — TAB, LF, VT, FF, CR,
SPACE, NBSP, OGHAM SPACE MARK, the Zs run U+2000..U+200A, LS, PS, NARROW
NBSP, MMSP, IDEOGRAPHIC SPACE and ZWNBSP. -/
def isJsWS (c : Char) : Bool :=
  c = ' ' || c = '\t' || c = '\n' || c = '\r' || c = '\x0b' || c = '\x0c'
    || c = '\u00A0' || c = '\u1680'
    || ('\u2000' ≤ c && c ≤ '\u200A')
    || c = '\u2028' || c = '\u2029' || c = '\u202F' || c = '\u205F'
    || c = '\u3000' || c = '\uFEFF'

/-- JavaScript `s.split(",")` at the character-list level: always returns at
least one piece; a separator at the end produces a trailing empty piece. -/
def jsSplitL : List Char → List (List Char)
  | [] => [[]]
  | c :: cs =>
    if c = ',' then [] :: jsSplitL cs
    else
      match jsSplitL cs with
      | [] => [[c]]
      | p :: ps => (c :: p) :: ps

/-- JavaScript `s.split(",")`. -/
def jsSplit (s : String) : List String :=
  (jsSplitL s.data).map String.mk

/-- JavaScript `s.trim()` at the character-list level. -/
def jsTrimL (l : List Char) : List Char :=
  ((l.dropWhile isJsWS).reverse.dropWhile isJsWS).reverse

/-- JavaScript `s.trim()`. -/
def jsTrim (s : String) : String :=
  String.mk (jsTrimL s.data)

/-- JavaScript `Array.prototype.join` with a separator. -/
def jsJoin (sep : String) : List String → String
  | [] => ""
  | [x] => x
  | x :: xs => x ++ sep ++ jsJoin sep xs

/-- The `Order` interface of the page (remote document shape). -/
structure Order where
  _id : String
  fullName : String
  email : String
  phone : String
  address : String
  city : String
  postalCode : String
  country : String
  paymentMethod : String
  paymentStatus : String
  amount : Int
  createdAt : String
  cartItems : List String
deriving DecidableEq

/-- The `OrderInput` form-state type: every field optional (`undefined`
modelled as `none`), `cartItems` a single comma-separated string. -/
structure OrderInput where
  _id : Option String := none
  fullName : Option String := none
  email : Option String := none
  phone : Option String := none
  address : Option String := none
  city : Option String := none
  postalCode : Option String := none
  country : Option String := none
  paymentMethod : Option String := none
  paymentStatus : Option String := none
  amount : Option Int := none
  createdAt : Option String := none
  cartItems : Option String := none
deriving DecidableEq

/-- The component's `useState` hooks as one record. -/
structure AdminState where
  orders : List Order
  loading : Bool
  editingOrder : Option Order
  showAddForm : Bool
  formState : OrderInput
deriving DecidableEq

/-- All hooks start empty / false / `{}`. -/
def initialState : AdminState :=
  { orders := [], loading := false, editingOrder := none,
    showAddForm := false, formState := {} }

/-- `formState.cartItems ? formState.cartItems.split(",").map(item => item.trim()) : []`
— the truthiness test sends both `undefined` and `""` to `[]`. -/
def cartItemsArrayOf : Option String → List String
  | none => []
  | some s => if s = "" then [] else (jsSplit s).map jsTrim

/-- The document body sent by `client.create` in `handleAddNew`:
`{ _type: "order", ...formState, cartItems: cartItemsArray, createdAt }`. -/
structure CreateDoc where
  _type : String
  _id : Option String
  fullName : Option String
  email : Option String
  phone : Option String
  address : Option String
  city : Option String
  postalCode : Option String
  country : Option String
  paymentMethod : Option String
  paymentStatus : Option String
  amount : Option Int
  createdAt : String
  cartItems : List String
deriving DecidableEq

/-- The patch body sent by `handleUpdate`:
`{ ...formState, cartItems: cartItemsArray }`. -/
structure UpdateData where
  _id : Option String
  fullName : Option String
  email : Option String
  phone : Option String
  address : Option String
  city : Option String
  postalCode : Option String
  country : Option String
  paymentMethod : Option String
  paymentStatus : Option String
  amount : Option Int
  createdAt : Option String
  cartItems : List String
deriving DecidableEq

/-- The store request a handler issued, if any. -/
inductive StoreCall where
  | fetchAll
  | create (doc : CreateDoc)
  | patch (id : String) (data : UpdateData)
  | delete (id : String)
deriving DecidableEq

/-- Result of running one handler: the new hook state, the store request it
issued (if any), and the `alert` message it raised (if any). -/
structure StepResult where
  state : AdminState
  storeCall : Option StoreCall
  alert : Option String
deriving DecidableEq

/-- `fetchOrders`: on success the fetched array replaces `orders` wholesale;
on failure the error is only logged (`console.error`), no alert.  `loading`
is set while the call is in flight and cleared before the handler returns. -/
def fetchOrders (st : AdminState) (result : Except Unit (List Order)) : StepResult :=
  match result with
  | .ok data =>
    { state := { st with orders := data, loading := false },
      storeCall := some .fetchAll, alert := none }
  | .error _ =>
    { state := { st with loading := false },
      storeCall := some .fetchAll, alert := none }

/-- `handleDelete`: guarded by `confirm(...)`; on confirmed success the local
list drops every entry whose `_id` equals the given id; on failure an alert
is raised and the list is untouched; declining issues no store call. -/
def handleDelete (st : AdminState) (id : String) (confirmed : Bool)
    (result : Except Unit Unit) : StepResult :=
  if confirmed then
    match result with
    | .ok _ =>
      { state := { st with orders := st.orders.filter (fun order => order._id != id) },
        storeCall := some (.delete id), alert := none }
    | .error _ =>
      { state := st, storeCall := some (.delete id),
        alert := some "Failed to delete order" }
  else
    { state := st, storeCall := none, alert := none }

/-- `handleEditClick`: set the edit target, derive the form state from the
order (`cartItems` joined with `", "`), and leave create mode.
(`window.scrollTo` is a pure display effect and is not modelled.) -/
def handleEditClick (st : AdminState) (order : Order) : AdminState :=
  { st with
    editingOrder := some order,
    formState :=
      { _id := some order._id,
        fullName := some order.fullName,
        email := some order.email,
        phone := some order.phone,
        address := some order.address,
        city := some order.city,
        postalCode := some order.postalCode,
        country := some order.country,
        paymentMethod := some order.paymentMethod,
        paymentStatus := some order.paymentStatus,
        amount := some order.amount,
        createdAt := some order.createdAt,
        cartItems := some (jsJoin ", " order.cartItems) },
    showAddForm := false }

/-- `handleCancel`: discard edit/create intent and clear the form. -/
def handleCancel (st : AdminState) : AdminState :=
  { st with editingOrder := none, showAddForm := false, formState := {} }

/-- The "Add New Order" button handler: enter create mode, leave edit mode,
clear the form. -/
def handleAddNewClick (st : AdminState) : AdminState :=
  { st with showAddForm := true, editingOrder := none, formState := {} }

/-- The `updateData` object built inside `handleUpdate`. -/
def sentUpdateData (st : AdminState) : UpdateData :=
  { _id := st.formState._id,
    fullName := st.formState.fullName,
    email := st.formState.email,
    phone := st.formState.phone,
    address := st.formState.address,
    city := st.formState.city,
    postalCode := st.formState.postalCode,
    country := st.formState.country,
    paymentMethod := st.formState.paymentMethod,
    paymentStatus := st.formState.paymentStatus,
    amount := st.formState.amount,
    createdAt := st.formState.createdAt,
    cartItems := cartItemsArrayOf st.formState.cartItems }

/-- `handleUpdate`: runs only when `editingOrder && editingOrder._id` is
truthy (a string is truthy iff non-empty).  The patch response `updated` is a
handler parameter; on success the matching list entry is replaced by the
rebuilt `updatedOrder` (field-for-field the response, hence equal to it) and
the form is closed via `handleCancel`; on failure only an alert is raised. -/
def handleUpdate (st : AdminState) (result : Except Unit Order) : StepResult :=
  match st.editingOrder with
  | none => { state := st, storeCall := none, alert := none }
  | some editingOrder =>
    if editingOrder._id = "" then
      { state := st, storeCall := none, alert := none }
    else
      match result with
      | .ok updated =>
        let updatedOrder : Order :=
          { _id := updated._id,
            fullName := updated.fullName,
            email := updated.email,
            phone := updated.phone,
            address := updated.address,
            city := updated.city,
            postalCode := updated.postalCode,
            country := updated.country,
            paymentMethod := updated.paymentMethod,
            paymentStatus := updated.paymentStatus,
            amount := updated.amount,
            createdAt := updated.createdAt,
            cartItems := updated.cartItems }
        { state := { st with
            orders := st.orders.map
              (fun ord => if ord._id = editingOrder._id then updatedOrder else ord),
            editingOrder := none, showAddForm := false, formState := {} },
          storeCall := some (.patch editingOrder._id (sentUpdateData st)),
          alert := none }
      | .error _ =>
        { state := st,
          storeCall := some (.patch editingOrder._id (sentUpdateData st)),
          alert := some "Failed to update order" }

/-- The document `handleAddNew` sends to `client.create`: `createdAt` is
`formState.createdAt || new Date().toISOString()` (both `undefined` and `""`
are falsy), with `now` the ISO timestamp at the moment the handler runs. -/
def sentCreateDoc (st : AdminState) (now : String) : CreateDoc :=
  { _type := "order",
    _id := st.formState._id,
    fullName := st.formState.fullName,
    email := st.formState.email,
    phone := st.formState.phone,
    address := st.formState.address,
    city := st.formState.city,
    postalCode := st.formState.postalCode,
    country := st.formState.country,
    paymentMethod := st.formState.paymentMethod,
    paymentStatus := st.formState.paymentStatus,
    amount := st.formState.amount,
    createdAt :=
      match st.formState.createdAt with
      | none => now
      | some s => if s = "" then now else s,
    cartItems := cartItemsArrayOf st.formState.cartItems }

/-- Modelled from the spec: the document-store client (`@/sanity/lib/client`,
repository code outside the provided sources) whose create operation is
"accepting a typed document body and returning the persisted document
including server-assigned id".  The response echoes the sent body; fields the
body left absent stay absent (the page's `!` assertions read them as-is, here
rendered by `getD` defaults). -/
def echoCreateResponse (doc : CreateDoc) (assignedId : String) : Order :=
  { _id := doc._id.getD assignedId,
    fullName := doc.fullName.getD "",
    email := doc.email.getD "",
    phone := doc.phone.getD "",
    address := doc.address.getD "",
    city := doc.city.getD "",
    postalCode := doc.postalCode.getD "",
    country := doc.country.getD "",
    paymentMethod := doc.paymentMethod.getD "",
    paymentStatus := doc.paymentStatus.getD "",
    amount := doc.amount.getD 0,
    createdAt := doc.createdAt,
    cartItems := doc.cartItems }

/-- `handleAddNew`: build the create document from the form, send it; on
success (`assignedId` the server-assigned id) append the store's answer to
the local list and close the form; on failure raise an alert only. -/
def handleAddNew (st : AdminState) (now : String)
    (result : Except Unit String) : StepResult :=
  match result with
  | .ok assignedId =>
    let newOrder := echoCreateResponse (sentCreateDoc st now) assignedId
    let addedOrder : Order :=
      { _id := newOrder._id,
        fullName := newOrder.fullName,
        email := newOrder.email,
        phone := newOrder.phone,
        address := newOrder.address,
        city := newOrder.city,
        postalCode := newOrder.postalCode,
        country := newOrder.country,
        paymentMethod := newOrder.paymentMethod,
        paymentStatus := newOrder.paymentStatus,
        amount := newOrder.amount,
        createdAt := newOrder.createdAt,
        cartItems := newOrder.cartItems }
    { state := { st with
        orders := st.orders ++ [addedOrder],
        editingOrder := none, showAddForm := false, formState := {} },
      storeCall := some (.create (sentCreateDoc st now)), alert := none }
  | .error _ =>
    { state := st, storeCall := some (.create (sentCreateDoc st now)),
      alert := some "Failed to create order" }

/-- A single form-field edit (`handleFormChange` writes `[name]: value` into
the form state; the form has no checkbox inputs, so the checkbox special case
never fires; values are typed as `OrderInput` declares them). -/
inductive FormChange where
  | fullName (v : String)
  | email (v : String)
  | phone (v : String)
  | address (v : String)
  | city (v : String)
  | postalCode (v : String)
  | country (v : String)
  | paymentMethod (v : String)
  | paymentStatus (v : String)
  | amount (v : Int)
  | createdAt (v : String)
  | cartItems (v : String)
deriving DecidableEq

/-- Apply one field edit to the form state. -/
def applyFormChange (fs : OrderInput) : FormChange → OrderInput
  | .fullName v => { fs with fullName := some v }
  | .email v => { fs with email := some v }
  | .phone v => { fs with phone := some v }
  | .address v => { fs with address := some v }
  | .city v => { fs with city := some v }
  | .postalCode v => { fs with postalCode := some v }
  | .country v => { fs with country := some v }
  | .paymentMethod v => { fs with paymentMethod := some v }
  | .paymentStatus v => { fs with paymentStatus := some v }
  | .amount v => { fs with amount := some v }
  | .createdAt v => { fs with createdAt := some v }
  | .cartItems v => { fs with cartItems := some v }

/-- `handleFormChange`: touches only `formState`. -/
def handleFormChange (st : AdminState) (c : FormChange) : AdminState :=
  { st with formState := applyFormChange st.formState c }

/-- The UI events that drive the view, each carrying the outcome of the store
call it triggers (if any). -/
inductive Event where
  | fetch (result : Except Unit (List Order))
  | editClick (order : Order)
  | addNewClick
  | cancel
  | submitUpdate (result : Except Unit Order)
  | submitCreate (now : String) (result : Except Unit String)
  | deleteClick (id : String) (confirmed : Bool) (result : Except Unit Unit)
  | formChange (c : FormChange)

/-- One UI event's effect on the hook state. -/
def step (st : AdminState) : Event → AdminState
  | .fetch r => (fetchOrders st r).state
  | .editClick o => handleEditClick st o
  | .addNewClick => handleAddNewClick st
  | .cancel => handleCancel st
  | .submitUpdate r => (handleUpdate st r).state
  | .submitCreate now r => (handleAddNew st now r).state
  | .deleteClick id c r => (handleDelete st id c r).state
  | .formChange c => handleFormChange st c

/-- States the view can reach from mount. -/
inductive Reachable : AdminState → Prop
  | init : Reachable initialState
  | next {s : AdminState} (e : Event) : Reachable s → Reachable (step s e)

/-- Both UI modes at once never happens: either create mode is off or no
edit target is set. -/
def ModeInv (s : AdminState) : Prop :=
  s.showAddForm = false ∨ s.editingOrder = none

/-- A concrete order used to evaluate the transitions. -/
def sampleOrder : Order :=
  { _id := "o1", fullName := "Jane Roe", email := "jane@example.com",
    phone := "555-0100", address := "1 Main St", city := "Metropolis",
    postalCode := "11111", country := "US", paymentMethod := "creditCard",
    paymentStatus := "paid", amount := 10,
    createdAt := "2024-01-01T00:00:00.000Z", cartItems := ["A", "B"] }

/-- A second concrete order with a different id. -/
def sampleOrder2 : Order :=
  { _id := "o2", fullName := "John Doe", email := "john@example.com",
    phone := "555-0101", address := "2 Main St", city := "Gotham",
    postalCode := "22222", country := "US", paymentMethod := "cash",
    paymentStatus := "cash on delivery", amount := 20,
    createdAt := "2024-01-02T00:00:00.000Z", cartItems := ["C"] }

/-- A state in which `sampleOrder` is being edited. -/
def editingState : AdminState :=
  handleEditClick { initialState with orders := [sampleOrder, sampleOrder2] } sampleOrder

/-- A list that holds the same order (same `_id`) twice. -/
def dupState : AdminState :=
  { initialState with orders := [sampleOrder, sampleOrder] }

/-- A two-element list with distinct ids. -/
def delState : AdminState :=
  { initialState with orders := [sampleOrder, sampleOrder2] }

/-! ## Lemmas about the JavaScript string operations -/

theorem jsSplitL_ne_nil (l : List Char) : jsSplitL l ≠ [] := by
  induction l with
  | nil => simp [jsSplitL]
  | cons c cs ih =>
    simp only [jsSplitL]
    split
    · simp
    · cases h : jsSplitL cs with
      | nil => simp
      | cons p ps => simp

theorem jsSplitL_prefix (p : List Char) (hp : ',' ∉ p) (s : List Char)
    (x : List Char) (xs : List (List Char)) (h : jsSplitL s = x :: xs) :
    jsSplitL (p ++ s) = (p ++ x) :: xs := by
  induction p with
  | nil => simpa using h
  | cons c q ih =>
    have hc : c ≠ ',' := by
      rintro rfl
      exact hp (List.mem_cons_self _ _)
    have hq : ',' ∉ q := fun hm => hp (List.mem_cons_of_mem _ hm)
    simp only [List.cons_append, jsSplitL, if_neg hc, List.append_eq]
    rw [ih hq]

theorem jsSplitL_noComma (l : List Char) (h : ',' ∉ l) : jsSplitL l = [l] := by
  have := jsSplitL_prefix l h [] [] [] rfl
  simpa using this

theorem jsSplitL_comma (a r : List Char) (ha : ',' ∉ a) :
    jsSplitL (a ++ ',' :: r) = a :: jsSplitL r := by
  have h1 : jsSplitL (',' :: r) = [] :: jsSplitL r := by simp [jsSplitL]
  have := jsSplitL_prefix a ha (',' :: r) [] (jsSplitL r) h1
  simpa using this

theorem jsSplitL_length (l : List Char) : (jsSplitL l).length = l.count ',' + 1 := by
  induction l with
  | nil => simp [jsSplitL]
  | cons c cs ih =>
    by_cases hc : c = ','
    · subst hc
      simp [jsSplitL, ih, List.count_cons]
    · simp only [jsSplitL, if_neg hc]
      cases h : jsSplitL cs with
      | nil => exact absurd h (jsSplitL_ne_nil cs)
      | cons p ps =>
        rw [h] at ih
        have hcc : ¬ (',' = c) := fun h0 => hc h0.symm
        simp only [List.length_cons] at ih ⊢
        have : List.count ',' (c :: cs) = List.count ',' cs := by
          simp [List.count_cons, hcc]
        omega

theorem jsTrimL_space (l : List Char) : jsTrimL (' ' :: l) = jsTrimL l := by
  have h : isJsWS ' ' = true := by decide
  simp [jsTrimL, List.dropWhile_cons, h]

/-- Splitting the `", "`-join of comma-free elements recovers the elements,
all but the first carrying the separator's space as a prefix. -/
theorem jsSplitL_join (x : String) (xs : List String)
    (h : ∀ e ∈ x :: xs, ',' ∉ e.data) :
    jsSplitL (jsJoin ", " (x :: xs)).data
      = x.data :: xs.map (fun e => ' ' :: e.data) := by
  induction xs generalizing x with
  | nil =>
    simpa [jsJoin] using jsSplitL_noComma x.data (h x (List.mem_cons_self _ _))
  | cons y tl ih =>
    have hx : ',' ∉ x.data := h x (List.mem_cons_self _ _)
    have h' : ∀ e ∈ y :: tl, ',' ∉ e.data := fun e he => h e (List.mem_cons_of_mem _ he)
    have hjoin : (jsJoin ", " (x :: y :: tl)).data
        = x.data ++ ',' :: ' ' :: (jsJoin ", " (y :: tl)).data := by
      show (x ++ ", " ++ jsJoin ", " (y :: tl)).data = _
      simp [String.data_append]
    rw [hjoin, jsSplitL_comma x.data _ hx]
    congr 1
    have hpre := jsSplitL_prefix [' '] (by decide) _ _ _ (ih y h')
    simpa using hpre

/-- The round-trip `join ", "` then truthiness-guarded split-and-trim, for
lists of comma-free, trim-invariant elements other than `[""]`. -/
theorem cartItems_roundtrip_aux (l : List String)
    (hc : ∀ e ∈ l, ',' ∉ e.data) (ht : ∀ e ∈ l, jsTrim e = e)
    (hne : l ≠ [""]) :
    cartItemsArrayOf (some (jsJoin ", " l)) = l := by
  cases l with
  | nil => rfl
  | cons x xs =>
    have hjoin_ne : jsJoin ", " (x :: xs) ≠ "" := by
      cases xs with
      | nil =>
        intro h0
        apply hne
        simp only [jsJoin] at h0
        rw [h0]
      | cons y tl =>
        intro h0
        have hdata : (jsJoin ", " (x :: y :: tl)).data = [] := by rw [h0]
        rw [show jsJoin ", " (x :: y :: tl) = x ++ ", " ++ jsJoin ", " (y :: tl) from rfl]
          at hdata
        simp [String.data_append] at hdata
    simp only [cartItemsArrayOf, if_neg hjoin_ne]
    rw [jsSplit, jsSplitL_join x xs hc]
    simp only [List.map_cons, List.map_map]
    have hhead : jsTrim (String.mk x.data) = x := ht x (List.mem_cons_self _ _)
    have htail : xs.map (jsTrim ∘ String.mk ∘ fun e => ' ' :: e.data) = xs := by
      have hstep : ∀ e ∈ xs, (jsTrim ∘ String.mk ∘ fun e => ' ' :: e.data) e = id e := by
        intro e he
        show jsTrim (String.mk (' ' :: e.data)) = e
        rw [show jsTrim (String.mk (' ' :: e.data)) = String.mk (jsTrimL (' ' :: e.data))
              from rfl,
            jsTrimL_space]
        exact ht e (List.mem_cons_of_mem _ he)
      rw [List.map_congr_left hstep, List.map_id]
    rw [hhead, htail]

/-! ## Claim theorems -/

/-- C1: for every create-mode submission, the cartItems sequence sent to the
store and (on success) kept locally is the truthiness-guarded
split-on-comma-and-trim of the form text, and an empty or unset cart-items
field yields the empty sequence. -/
theorem create_cartItems_conversion (st : AdminState) (now : String)
    (assignedId : String) :
    ((handleAddNew st now (.ok assignedId)).storeCall
        = some (.create (sentCreateDoc st now))
      ∧ (sentCreateDoc st now).cartItems = cartItemsArrayOf st.formState.cartItems
      ∧ (handleAddNew st now (.ok assignedId)).state.orders
          = st.orders ++ [echoCreateResponse (sentCreateDoc st now) assignedId]
      ∧ (echoCreateResponse (sentCreateDoc st now) assignedId).cartItems
          = cartItemsArrayOf st.formState.cartItems)
    ∧ cartItemsArrayOf none = []
    ∧ cartItemsArrayOf (some "") = []
    ∧ ∀ s : String, s ≠ "" → cartItemsArrayOf (some s) = (jsSplit s).map jsTrim := by
  refine ⟨⟨rfl, rfl, rfl, rfl⟩, rfl, rfl, ?_⟩
  intro s hs
  simp [cartItemsArrayOf, hs]

/-- C1 witness: the conversion clause evaluated at a concrete form text. -/
theorem create_cartItems_conversion_witness :
    cartItemsArrayOf (some " a , b ") = (jsSplit " a , b ").map jsTrim :=
  (create_cartItems_conversion initialState "2024-01-01T00:00:00.000Z" "new1").2.2.2
    " a , b " (by decide)

/-- C2 counterexample: the claimed round-trip fails for a sequence whose
element contains a comma — `["a,b"]` joins to `"a,b"` and splits back to
`["a", "b"]`. -/
theorem edit_roundtrip_counterexample :
    ¬ (cartItemsArrayOf (some (jsJoin ", " ["a,b"])) = ["a,b"]) := by decide

/-- C2 (amended): selecting Edit puts `jsJoin ", " cartItems` into the form
field; `["A","B","C"]` joins to `"A, B, C"` and splits back to
`["A","B","C"]`; and the round-trip holds for every sequence whose elements
are comma-free and trim-invariant, other than the singleton `[""]`. -/
theorem edit_join_roundtrip :
    (∀ (st : AdminState) (order : Order),
        (handleEditClick st order).formState.cartItems
          = some (jsJoin ", " order.cartItems))
    ∧ jsJoin ", " ["A", "B", "C"] = "A, B, C"
    ∧ cartItemsArrayOf (some "A, B, C") = ["A", "B", "C"]
    ∧ ∀ l : List String, (∀ e ∈ l, ',' ∉ e.data) → (∀ e ∈ l, jsTrim e = e) →
        l ≠ [""] → cartItemsArrayOf (some (jsJoin ", " l)) = l := by
  exact ⟨fun st order => rfl, by decide, by decide, cartItems_roundtrip_aux⟩

/-- C2 witness: the amended round-trip at `["A","B","C"]`. -/
theorem edit_join_roundtrip_witness :
    cartItemsArrayOf (some (jsJoin ", " ["A", "B", "C"])) = ["A", "B", "C"] :=
  edit_join_roundtrip.2.2.2 ["A", "B", "C"] (by decide) (by decide) (by decide)

/-- C10: the conversion never drops elements — for non-empty input the result
has one element per comma plus one, and consecutive or trailing commas yield
empty-string elements. -/
theorem conversion_never_drops_elements :
    (∀ s : String, s ≠ "" →
        (cartItemsArrayOf (some s)).length = s.data.count ',' + 1)
    ∧ cartItemsArrayOf (some "A,,B") = ["A", "", "B"]
    ∧ cartItemsArrayOf (some "A,") = ["A", ""] := by
  refine ⟨?_, by decide, by decide⟩
  intro s hs
  simp [cartItemsArrayOf, hs, jsSplit, jsSplitL_length]

/-- C10 witness: the length law evaluated at `"A,"`. -/
theorem conversion_never_drops_elements_witness :
    (cartItemsArrayOf (some "A,")).length = ("A,").data.count ',' + 1 :=
  conversion_never_drops_elements.1 "A," (by decide)

/-- C3: a successful update replaces exactly the entries whose id equals the
edited record's id, leaves every other entry unchanged, and preserves the
list's length (hence order, shown index-wise). -/
theorem update_replaces_only_matching_id (st : AdminState)
    (editingOrder updated : Order)
    (he : st.editingOrder = some editingOrder) (hid : editingOrder._id ≠ "") :
    (handleUpdate st (.ok updated)).state.orders.length = st.orders.length
    ∧ (∀ (i : Nat) (o : Order), st.orders[i]? = some o → o._id ≠ editingOrder._id →
        (handleUpdate st (.ok updated)).state.orders[i]? = some o)
    ∧ (∀ (i : Nat) (o : Order), st.orders[i]? = some o → o._id = editingOrder._id →
        (handleUpdate st (.ok updated)).state.orders[i]? = some updated) := by
  have horders : (handleUpdate st (.ok updated)).state.orders
      = st.orders.map
          (fun ord => if ord._id = editingOrder._id then updated else ord) := by
    unfold handleUpdate
    rw [he]
    simp [hid]
  refine ⟨by rw [horders, List.length_map], ?_, ?_⟩
  · intro i o hio hne
    rw [horders, List.getElem?_map, hio]
    simp [hne]
  · intro i o hio heq
    rw [horders, List.getElem?_map, hio]
    simp [heq]

/-- C3 witness: the length clause at a concrete editing state. -/
theorem update_replaces_only_matching_id_witness :
    (handleUpdate editingState (.ok sampleOrder2)).state.orders.length
      = editingState.orders.length :=
  (update_replaces_only_matching_id editingState sampleOrder sampleOrder2
    rfl (by decide)).1

/-- C4 counterexample: when the same id occurs twice in the list, a confirmed
successful delete removes both entries, not exactly one. -/
theorem delete_duplicate_ids_counterexample :
    (handleDelete dupState "o1" true (.ok ())).state.orders.length
      ≠ dupState.orders.length - 1 := by decide

/-- C4 (amended): for every order list in which the id occurs exactly once, a
confirmed successful delete removes exactly that entry and leaves the rest in
order and content; declining the confirmation leaves the state unchanged and
issues no store call. -/
theorem delete_removes_unique_match (st : AdminState) (id : String)
    (r : Except Unit Unit) :
    (∀ (l₁ l₂ : List Order) (o : Order),
        st.orders = l₁ ++ o :: l₂ → o._id = id →
        (∀ x ∈ l₁, x._id ≠ id) → (∀ x ∈ l₂, x._id ≠ id) →
        (handleDelete st id true (.ok ())).state.orders = l₁ ++ l₂)
    ∧ (handleDelete st id false r).state = st
    ∧ (handleDelete st id false r).storeCall = none := by
  refine ⟨?_, rfl, rfl⟩
  intro l₁ l₂ o hsplit hoid h1 h2
  have hfilter : (handleDelete st id true (.ok ())).state.orders
      = st.orders.filter (fun order => order._id != id) := rfl
  have e1 : l₁.filter (fun order => order._id != id) = l₁ :=
    List.filter_eq_self.mpr (fun a ha => by simpa using h1 a ha)
  have e2 : l₂.filter (fun order => order._id != id) = l₂ :=
    List.filter_eq_self.mpr (fun a ha => by simpa using h2 a ha)
  rw [hfilter, hsplit, List.filter_append, e1, List.filter_cons]
  simp [hoid, e2]

/-- C4 witness: deleting `"o1"` from `[sampleOrder, sampleOrder2]` leaves
exactly `[sampleOrder2]`. -/
theorem delete_removes_unique_match_witness :
    (handleDelete delState "o1" true (.ok ())).state.orders = [sampleOrder2] :=
  (delete_removes_unique_match delState "o1" (.ok ())).1 [] [sampleOrder2]
    sampleOrder rfl rfl (by decide) (by decide)

/-- C5: a failed update leaves the whole hook state — order list, edit
target, form values, mode flag — exactly as it was, raising only an alert. -/
theorem update_failure_preserves_state (st : AdminState) (editingOrder : Order)
    (he : st.editingOrder = some editingOrder) (hid : editingOrder._id ≠ "") :
    (handleUpdate st (.error ())).state = st
    ∧ (handleUpdate st (.error ())).alert = some "Failed to update order" := by
  unfold handleUpdate
  rw [he]
  simp [hid]

/-- C5 witness: the state-preservation clause at a concrete editing state. -/
theorem update_failure_preserves_state_witness :
    (handleUpdate editingState (.error ())).state = editingState :=
  (update_failure_preserves_state editingState sampleOrder rfl (by decide)).1

/-- C6: the created document's `createdAt` is the invocation-time timestamp
`now` when the form field is unset or empty, and the form value unchanged
otherwise; the create call always sends that document. -/
theorem create_createdAt_default (st : AdminState) (now : String)
    (res : Except Unit String) :
    ((st.formState.createdAt = none ∨ st.formState.createdAt = some "") →
        (sentCreateDoc st now).createdAt = now)
    ∧ (∀ s : String, st.formState.createdAt = some s → s ≠ "" →
        (sentCreateDoc st now).createdAt = s)
    ∧ (handleAddNew st now res).storeCall = some (.create (sentCreateDoc st now)) := by
  refine ⟨?_, ?_, ?_⟩
  · rintro (h | h) <;> simp [sentCreateDoc, h]
  · intro s hs hne
    simp [sentCreateDoc, hs, hne]
  · cases res <;> rfl

/-- C6 witness: with an unset `createdAt` the sent document carries `now`. -/
theorem create_createdAt_default_witness :
    (sentCreateDoc initialState "2024-02-02T00:00:00.000Z").createdAt
      = "2024-02-02T00:00:00.000Z" :=
  (create_createdAt_default initialState "2024-02-02T00:00:00.000Z"
    (.ok "n1")).1 (Or.inl rfl)

/-- C7: a failed fetch leaves the order list at its prior value and raises no
alert; a successful fetch replaces the list wholesale with the fetched
array. -/
theorem fetch_result_handling (st : AdminState) (data : List Order) :
    ((fetchOrders st (.error ())).state.orders = st.orders
      ∧ (fetchOrders st (.error ())).alert = none)
    ∧ (fetchOrders st (.ok data)).state.orders = data :=
  ⟨⟨rfl, rfl⟩, rfl⟩

/-- Every event preserves mode exclusivity. -/
theorem modeInv_step (s : AdminState) (e : Event) (h : ModeInv s) :
    ModeInv (step s e) := by
  cases e with
  | fetch r => cases r <;> exact h
  | editClick o => exact Or.inl rfl
  | addNewClick => exact Or.inr rfl
  | cancel => exact Or.inl rfl
  | submitUpdate r =>
    show ModeInv (handleUpdate s r).state
    unfold handleUpdate
    cases he : s.editingOrder with
    | none => exact h
    | some eo =>
      by_cases hid : eo._id = ""
      · simp only [if_pos hid]
        exact h
      · simp only [if_neg hid]
        cases r with
        | ok u => exact Or.inr rfl
        | error e => exact h
  | submitCreate now r =>
    cases r with
    | ok aid => exact Or.inr rfl
    | error e => exact h
  | deleteClick id c r => cases c <;> cases r <;> exact h
  | formChange c => exact h

/-- C8: in every reachable state create mode and edit mode are never both
active; moreover entering edit mode clears `showAddForm` and entering create
mode clears `editingOrder`. -/
theorem modes_mutually_exclusive :
    (∀ s : AdminState, Reachable s →
        ¬ (s.showAddForm = true ∧ s.editingOrder ≠ none))
    ∧ (∀ (st : AdminState) (o : Order), (handleEditClick st o).showAddForm = false)
    ∧ (∀ st : AdminState, (handleAddNewClick st).editingOrder = none) := by
  refine ⟨?_, fun st o => rfl, fun st => rfl⟩
  intro s hs
  have hinv : ModeInv s := by
    induction hs with
    | init => exact Or.inl rfl
    | next e hr ih => exact modeInv_step _ e ih
  rcases hinv with h | h
  · rintro ⟨h1, h2⟩
    rw [h] at h1
    exact Bool.false_ne_true h1
  · rintro ⟨h1, h2⟩
    exact h2 h

/-- C8 witness: the invariant at the (reachable) initial state. -/
theorem modes_mutually_exclusive_witness :
    ¬ (initialState.showAddForm = true ∧ initialState.editingOrder ≠ none) :=
  modes_mutually_exclusive.1 initialState Reachable.init

/-- C9: invoking the update handler with no edit target (or an edit target
with a falsy id) performs no store call, raises no alert, and leaves the
whole state unchanged. -/
theorem update_without_target_is_noop (st : AdminState) (res : Except Unit Order)
    (h : st.editingOrder = none
      ∨ ∃ o : Order, st.editingOrder = some o ∧ o._id = "") :
    handleUpdate st res = { state := st, storeCall := none, alert := none } := by
  unfold handleUpdate
  rcases h with h | ⟨o, ho, hid⟩
  · rw [h]
  · rw [ho]
    simp [hid]

/-- C9 witness: at the initial state the update handler is a no-op. -/
theorem update_without_target_is_noop_witness :
    handleUpdate initialState (.error ())
      = { state := initialState, storeCall := none, alert := none } :=
  update_without_target_is_noop initialState (.error ()) (Or.inl rfl)

end AdminOrders

